import Mathlib

/-!
Shallow embedding of the valen-reminder-bot repository.

The repository has two parallel implementations:

* `src/db.py` (`Database`, SQLite table `users` with integer columns
  `reminder_hour_1`, `reminder_hour_2`, nullable text
  `last_interaction_date` and integer `subscribed`) together with
  `src/valen_bot/bot.py` (`ValenBot`: command handlers `/start`, `/stop`,
  the message handler, the scheduled `send_reminder` callback, the
  `schedule_user_reminders` / `cancel_user_jobs` job management and the
  daily `check_inactivity` sweep);
* `src/valen_bot/db.py` (module-level functions over SQLite table `users`
  with text columns `last_interaction`, `morning_time`, `evening_time`).

Rows keyed by the `user_id` primary key are modelled as association
lists; SQL `UPDATE ... WHERE user_id=?` updates every matching row (on a
primary-key table there is at most one).
-/

namespace Valen

/-- A row of the `users` table of `src/db.py` (`Database._initialise`):
`reminder_hour_1`, `reminder_hour_2`, nullable `last_interaction_date`,
and `subscribed` (SQLite integer 0/1, modelled as `Bool`). -/
structure UserRec where
  hour1 : Nat
  hour2 : Nat
  lastInteraction : Option String
  subscribed : Bool
  deriving Repr, DecidableEq

/-- The `users` table of `src/db.py`: association list keyed by `user_id`. -/
abbrev Store := List (Nat × UserRec)

/-- `SELECT ... FROM users WHERE user_id=?` followed by `fetchone`
(`Database.get_user`). -/
def findUser : Store → Nat → Option UserRec
  | [], _ => none
  | (k, r) :: rest, u => if k = u then some r else findUser rest u

/-- Whether some row has the given `user_id` (used to decide the SQL
`ON CONFLICT` branch). -/
def containsUser (st : Store) (u : Nat) : Bool :=
  (findUser st u).isSome

/-- Apply an update to every row whose key matches (SQL
`UPDATE users SET ... WHERE user_id=?`). -/
def updateRows (st : Store) (u : Nat) (f : UserRec → UserRec) : Store :=
  st.map (fun kr => if kr.1 = u then (kr.1, f kr.2) else kr)

/-- `Database.add_user`: `INSERT INTO users (..., last_interaction_date,
subscribed) VALUES (?, ?, ?, NULL, 1) ON CONFLICT(user_id) DO UPDATE SET
reminder_hour_1=excluded.reminder_hour_1,
reminder_hour_2=excluded.reminder_hour_2, subscribed=1`.
Defaults in the Python signature are `hour1=10`, `hour2=22`. -/
def dbAddUser (st : Store) (u h1 h2 : Nat) : Store :=
  if containsUser st u then
    updateRows st u (fun r => { r with hour1 := h1, hour2 := h2, subscribed := true })
  else
    st ++ [(u, { hour1 := h1, hour2 := h2, lastInteraction := none, subscribed := true })]

/-- `Database.remove_user`: `UPDATE users SET subscribed=0 WHERE user_id=?`. -/
def dbRemoveUser (st : Store) (u : Nat) : Store :=
  updateRows st u (fun r => { r with subscribed := false })

/-- `Database.update_interaction`: `UPDATE users SET last_interaction_date=?
WHERE user_id=?`, the bound value being `interaction_date.isoformat()`. -/
def dbUpdateInteraction (st : Store) (u : Nat) (iso : String) : Store :=
  updateRows st u (fun r => { r with lastInteraction := some iso })

/-- `Database.get_active_users`: `SELECT user_id, reminder_hour_1,
reminder_hour_2, last_interaction_date FROM users WHERE subscribed=1`,
materialised by `fetchall` (snapshot semantics). -/
def dbActiveUsers (st : Store) : List (Nat × UserRec) :=
  st.filter (fun kr => kr.2.subscribed)

/-! ## Calendar dates

`bot.py` uses `datetime.date`: `date.today()`, `date.fromisoformat`,
`date.isoformat`, and date subtraction (whose `.days` equals the
difference of the two dates' proleptic-Gregorian ordinals, CPython's
`date.toordinal`). -/

/-- A `datetime.date` value (year, month, day). -/
structure PyDate where
  year : Nat
  month : Nat
  day : Nat
  deriving Repr, DecidableEq

/-- Gregorian leap-year test. -/
def isLeapYear (y : Nat) : Bool :=
  y % 4 = 0 && (y % 100 ≠ 0 || y % 400 = 0)

/-- Number of days in a month (month `1`..`12`). -/
def daysInMonth (y m : Nat) : Nat :=
  if m = 2 then (if isLeapYear y then 29 else 28)
  else if m = 4 ∨ m = 6 ∨ m = 9 ∨ m = 11 then 30
  else 31

/-- Days in the year `y` before the first of month `m`. -/
def daysBeforeMonth (y m : Nat) : Nat :=
  (List.range (m - 1)).foldl (fun acc i => acc + daysInMonth y (i + 1)) 0

/-- CPython `date.toordinal`: day number of the proleptic Gregorian
calendar, with 0001-01-01 being day 1. -/
def toOrdinal (d : PyDate) : Int :=
  (365 * ((d.year : Int) - 1)
    + ((d.year : Int) - 1) / 4 - ((d.year : Int) - 1) / 100 + ((d.year : Int) - 1) / 400)
    + (daysBeforeMonth d.year d.month : Int) + (d.day : Int)

/-- `(a - b).days` for two `datetime.date` values. -/
def dateDiffDays (a b : PyDate) : Int :=
  toOrdinal a - toOrdinal b

/-- Split a character list at every occurrence of `sep` (the semantics
of Python `str.split(sep)` / `String.splitOn` for a one-character
separator). -/
def splitOnChar (sep : Char) : List Char → List (List Char)
  | [] => [[]]
  | c :: cs =>
    if c = sep then [] :: splitOnChar sep cs
    else
      match splitOnChar sep cs with
      | [] => [[c]]
      | g :: gs => (c :: g) :: gs

/-- Strip leading and trailing whitespace (`str.strip`). -/
def trimChars (cs : List Char) : List Char :=
  ((cs.dropWhile Char.isWhitespace).reverse.dropWhile Char.isWhitespace).reverse

/-- The last `n` characters. -/
def lastN (n : Nat) (cs : List Char) : List Char :=
  cs.drop (cs.length - n)

/-- Everything except the last `n` characters. -/
def dropLastN (n : Nat) (cs : List Char) : List Char :=
  cs.take (cs.length - n)

/-- Digit-character list to number (assumes all characters are digits). -/
def digitsToNat (cs : List Char) : Nat :=
  cs.foldl (fun acc c => acc * 10 + (c.toNat - 48)) 0

/-- Left-pad a number with zeros to the given width. -/
def padNum (width n : Nat) : String :=
  let s := toString n
  String.mk (List.replicate (width - s.length) '0') ++ s

/-- `date.isoformat()`: `YYYY-MM-DD`, zero padded. -/
def isoformat (d : PyDate) : String :=
  padNum 4 d.year ++ "-" ++ padNum 2 d.month ++ "-" ++ padNum 2 d.day

/-- `date.fromisoformat`: parse `YYYY-MM-DD`, validating the calendar
ranges (year 1..9999, month 1..12, day 1..days-in-month); any other
input raises `ValueError`, modelled as `none`. -/
def fromisoformat (s : String) : Option PyDate :=
  match splitOnChar '-' s.data with
  | [ys, ms, ds] =>
    if ys.length = 4 ∧ ms.length = 2 ∧ ds.length = 2
        ∧ ys.all Char.isDigit ∧ ms.all Char.isDigit ∧ ds.all Char.isDigit then
      let y := digitsToNat ys
      let m := digitsToNat ms
      let d := digitsToNat ds
      if 1 ≤ y ∧ 1 ≤ m ∧ m ≤ 12 ∧ 1 ≤ d ∧ d ≤ daysInMonth y m then
        some ⟨y, m, d⟩
      else none
    else none
  | _ => none

/-! ## ValenBot: job table and handlers (`src/valen_bot/bot.py`) -/

/-- A live job handle produced by `job_queue.run_daily` in
`ValenBot.schedule_user_reminders`: the daily fire time (`hour`,
`minute`), the callback payload `data={"user_id": user_id}`, and the
job `name`. -/
structure Job where
  user : Nat
  hour : Nat
  minute : Nat
  name : String
  deriving Repr, DecidableEq

/-- In-memory bot state: the `Database` rows and the `self.user_jobs`
mapping from user id to the list of live job handles. -/
structure BotState where
  store : Store
  jobs : Nat → List Job

/-- The list of live job handles held for a user (`self.user_jobs`
entry, empty when absent). -/
def jobsOf (s : BotState) (u : Nat) : List Job :=
  s.jobs u

/-- `ValenBot.cancel_user_jobs`: pop the user's entry from
`self.user_jobs` and call `schedule_removal` on each handle. -/
def cancelUserJobs (s : BotState) (u : Nat) : BotState :=
  { s with jobs := fun v => if v = u then [] else s.jobs v }

/-- `ValenBot.schedule_user_reminders`: cancel existing jobs, read the
user's record; if missing or `subscribed == 0`, return; otherwise
install two `run_daily` jobs at `time(hour=hour1, minute=0)` and
`time(hour=hour2, minute=0)` named `reminder1_{u}` / `reminder2_{u}`.
`reminderJobs` is the pair of handles those two `run_daily` calls
return. -/
def reminderJobs (u : Nat) (r : UserRec) : List Job :=
  [ { user := u, hour := r.hour1, minute := 0, name := "reminder1_" ++ toString u },
    { user := u, hour := r.hour2, minute := 0, name := "reminder2_" ++ toString u } ]

def scheduleUserReminders (s : BotState) (u : Nat) : BotState :=
  let s1 := cancelUserJobs s u
  match findUser s1.store u with
  | none => s1
  | some r =>
    if r.subscribed = false then s1
    else
      { s1 with jobs := fun v => if v = u then reminderJobs u r else s1.jobs v }

/-- `ValenBot.start`: `db.add_user(user_id)` (defaults `10`, `22`), then
`cancel_user_jobs`, then `schedule_user_reminders`. -/
def startHandler (s : BotState) (u : Nat) : BotState :=
  scheduleUserReminders (cancelUserJobs { s with store := dbAddUser s.store u 10 22 } u) u

/-- `ValenBot.stop`: `db.remove_user(user_id)` then `cancel_user_jobs`. -/
def stopHandler (s : BotState) (u : Nat) : BotState :=
  cancelUserJobs { s with store := dbRemoveUser s.store u } u

/-- `ValenBot.handle_message`: look the sender up; if there is no record
or `subscribed == 0`, return without side effects; otherwise
`db.update_interaction(user_id)` with today's date. -/
def handleMessage (s : BotState) (u : Nat) (today : PyDate) : BotState :=
  match findUser s.store u with
  | none => s
  | some r =>
    if r.subscribed = false then s
    else { s with store := dbUpdateInteraction s.store u (isoformat today) }

/-- `ValenBot.send_reminder`: attempt the send; on success no state
change, on failure `cancel_user_jobs` then `db.remove_user`. -/
def sendReminder (s : BotState) (u : Nat) (ok : Bool) : BotState :=
  if ok then s
  else
    let s1 := cancelUserJobs s u
    { s1 with store := dbRemoveUser s1.store u }

/-! ## The inactivity sweep (`ValenBot.check_inactivity`) -/

/-- Per-user branch of `check_inactivity` on the snapshot row's
`last_interaction_date`: either the stored value is corrupt (repair and
skip), or a `days_inactive` count is computed. `none` in the store maps
to `last_date = today - timedelta(days=4)`. -/
inductive SweepAction where
  | repair : SweepAction
  | days : Int → SweepAction
  deriving Repr, DecidableEq

/-- Classify one snapshot row exactly as the loop body of
`check_inactivity` does before the `days_inactive >= 3` test. The
branch condition `if last_date_str:` is Python truthiness: it is false
both for `NULL` (`none`) and for the empty string, so only a non-empty
stored value reaches `date.fromisoformat`. -/
def sweepClassify (today : PyDate) (li : Option String) : SweepAction :=
  match li with
  | some s =>
    if s = "" then .days (toOrdinal today - (toOrdinal today - 4))
    else
      match fromisoformat s with
      | some lastDate => .days (toOrdinal today - toOrdinal lastDate)
      | none => .repair
  | none => .days (toOrdinal today - (toOrdinal today - 4))

/-- Whether a snapshot row triggers the re-engagement branch
(`days_inactive >= 3`). -/
def rowInactive (today : PyDate) (r : UserRec) : Bool :=
  match sweepClassify today r.lastInteraction with
  | .repair => false
  | .days n => 3 ≤ n

/-- Whether a snapshot row takes the corrupt-date repair branch: a
non-empty stored value that `date.fromisoformat` rejects (an empty
string is falsy in Python and never reaches the parse). -/
def rowCorrupt (r : UserRec) : Bool :=
  match r.lastInteraction with
  | some s => if s = "" then false else (fromisoformat s).isNone
  | none => false

/-- Result of one `check_inactivity` run: the store after repairs, the
users sent a re-engagement message, and the `(user, days)` admin
alerts. -/
structure SweepResult where
  store : Store
  reengaged : List Nat
  alerts : List (Nat × Int)

/-- The loop body of `check_inactivity` over the `get_active_users()`
snapshot: corrupt dates are repaired via `update_interaction(u, today)`
and the user skipped; otherwise `days_inactive >= 3` sends the
re-engagement message and, when an admin id is configured, the admin
alert. -/
def sweepLoop (today : PyDate) (admin : Bool) :
    List (Nat × UserRec) → Store → SweepResult
  | [], st => { store := st, reengaged := [], alerts := [] }
  | (u, r) :: rows, st =>
    match sweepClassify today r.lastInteraction with
    | .repair => sweepLoop today admin rows (dbUpdateInteraction st u (isoformat today))
    | .days n =>
      if 3 ≤ n then
        let res := sweepLoop today admin rows st
        { res with
            reengaged := u :: res.reengaged,
            alerts := if admin then (u, n) :: res.alerts else res.alerts }
      else sweepLoop today admin rows st

/-- `ValenBot.check_inactivity`: snapshot the active users, then run the
per-user loop. -/
def checkInactivity (s : BotState) (today : PyDate) (admin : Bool) : BotState × SweepResult :=
  let res := sweepLoop today admin (dbActiveUsers s.store) s.store
  ({ s with store := res.store }, res)

/-! ## Event-handler granularity transitions -/

/-- One completed event handler: `/start`, `/stop`, an inbound
non-command message, a scheduled reminder send (succeeding or failing),
a reschedule (`schedule_user_reminders`), or the daily inactivity
sweep. -/
inductive Ev where
  | start (u : Nat)
  | stop (u : Nat)
  | msg (u : Nat) (today : PyDate)
  | send (u : Nat) (ok : Bool)
  | resched (u : Nat)
  | sweep (today : PyDate) (admin : Bool)

/-- Apply one event handler to the bot state. -/
def step (s : BotState) : Ev → BotState
  | .start u => startHandler s u
  | .stop u => stopHandler s u
  | .msg u today => handleMessage s u today
  | .send u ok => sendReminder s u ok
  | .resched u => scheduleUserReminders s u
  | .sweep today admin => (checkInactivity s today admin).1

/-- Fresh bot state: empty `users` table, empty `self.user_jobs`. -/
def initState : BotState :=
  { store := [], jobs := fun _ => [] }

/-- State after a sequence of completed event handlers. -/
def runTrace (tr : List Ev) : BotState :=
  tr.foldl step initState

/-! ## Second implementation (`src/valen_bot/db.py`) -/

/-- A row of the `users` table of `src/valen_bot/db.py`:
`last_interaction` text, `morning_time` / `evening_time` text with
column defaults `'10:00'` / `'22:00'`; the schema has no `subscribed`
column. -/
structure UserRec2 where
  lastInteraction : String
  morning : String
  evening : String
  deriving Repr, DecidableEq

/-- The `users` table of `src/valen_bot/db.py`. -/
abbrev Store2 := List (Nat × UserRec2)

/-- Lookup by `user_id` for the second implementation. -/
def findUser2 : Store2 → Nat → Option UserRec2
  | [], _ => none
  | (k, r) :: rest, u => if k = u then some r else findUser2 rest u

/-- `add_user` of `src/valen_bot/db.py`: `INSERT OR IGNORE INTO users
(user_id, last_interaction) VALUES (?, ?)` with
`datetime.utcnow().isoformat()`; the time columns take their schema
defaults. An existing row is left completely unchanged. -/
def addUser2 (st : Store2) (u : Nat) (now : String) : Store2 :=
  if (findUser2 st u).isSome then st
  else st ++ [(u, { lastInteraction := now, morning := "10:00", evening := "22:00" })]

/-- `set_user_time` of `src/valen_bot/db.py`: `UPDATE users SET
{time_type}_time = ? WHERE user_id = ?` for `time_type = "morning"`. -/
def setMorningTime (st : Store2) (u : Nat) (t : String) : Store2 :=
  st.map (fun kr => if kr.1 = u then (kr.1, { kr.2 with morning := t }) else kr)

/-- The canonical `HH:MM` string denoted by a whole-hour reminder slot
of the first implementation (its schema stores only the hour). -/
def timeOfHour (h : Nat) : String :=
  padNum 2 h ++ ":00"

/-- Morning reminder time of a first-implementation record, as a
canonical `HH:MM` string. -/
def morningOf1 (st : Store) (u : Nat) : Option String :=
  (findUser st u).map (fun r => timeOfHour r.hour1)

/-- Morning reminder time of a second-implementation record. -/
def morningOf2 (st : Store2) (u : Nat) : Option String :=
  (findUser2 st u).map UserRec2.morning

/-! ## TimeSpec parser

Modelled from the spec: no time-text parser exists under `src/` (the
stored `morning_time` / `evening_time` strings of
`src/valen_bot/db.py` are written verbatim by `set_user_time`; the
handler that parses user-supplied time text is not part of the
sources). The spec's contract (§4.1): accept at minimum `"H:MM AM/PM"`,
`"H AM/PM"` and `"HH:MM"` 24-hour forms, produce a canonical
zero-padded 24-hour `"HH:MM"`, and signal `InvalidTimeFormat` (here
`none`) on any string with no extractable time. -/

/-- Digit check plus conversion; `none` when not a nonempty digit
string. -/
def parseNatStrict (cs : List Char) : Option Nat :=
  if cs.length > 0 ∧ cs.all Char.isDigit then some (digitsToNat cs) else none

/-- Convert a 12-hour clock hour to the 24-hour hour. -/
def to24Hour (h : Nat) (pm : Bool) : Nat :=
  if pm then (if h = 12 then 12 else h + 12)
  else (if h = 12 then 0 else h)

/-- Render a validated hour/minute pair canonically. -/
def canonicalHHMM (h m : Nat) : String :=
  padNum 2 h ++ ":" ++ padNum 2 m

/-- Modelled from the spec: parse the hour[:minute] core of a 12-hour
form (`"H:MM"` or bare `"H"`), validating `1 ≤ h ≤ 12`, `m < 60`. -/
def parseCore12 (core : List Char) (pm : Bool) : Option String :=
  match splitOnChar ':' core with
  | [hs] =>
    match parseNatStrict hs with
    | some h => if 1 ≤ h ∧ h ≤ 12 then some (canonicalHHMM (to24Hour h pm) 0) else none
    | none => none
  | [hs, ms] =>
    match parseNatStrict hs, parseNatStrict ms with
    | some h, some m =>
      if 1 ≤ h ∧ h ≤ 12 ∧ ms.length = 2 ∧ m < 60 then
        some (canonicalHHMM (to24Hour h pm) m)
      else none
    | _, _ => none
  | _ => none

/-- Modelled from the spec: parse a 24-hour `"HH:MM"` form, validating
`h < 24`, `m < 60`. -/
def parseCore24 (core : List Char) : Option String :=
  match splitOnChar ':' core with
  | [hs, ms] =>
    match parseNatStrict hs, parseNatStrict ms with
    | some h, some m =>
      if h < 24 ∧ ms.length = 2 ∧ m < 60 then some (canonicalHHMM h m) else none
    | _, _ => none
  | _ => none

/-- Modelled from the spec: the TimeSpec parser. Trims and
case-normalises the input, strips a trailing `AM`/`PM` marker, and
parses the remaining core as a 12-hour or 24-hour time; `none` is the
`InvalidTimeFormat` outcome. Pure function of the input string. -/
def parseTimeSpec (s : String) : Option String :=
  let t := (trimChars s.data).map Char.toUpper
  if lastN 2 t = ['A', 'M'] then parseCore12 (trimChars (dropLastN 2 t)) false
  else if lastN 2 t = ['P', 'M'] then parseCore12 (trimChars (dropLastN 2 t)) true
  else parseCore24 t

/-- Whether a string is a canonical zero-padded 24-hour `HH:MM`. -/
def isCanonicalHHMM (s : String) : Bool :=
  s.data.length = 5
    && (s.data.take 2).all Char.isDigit
    && (s.data.drop 3).all Char.isDigit
    && ((s.data.drop 2).take 1).all (fun c => c = ':')
    && decide (digitsToNat (s.data.take 2) < 24)
    && decide (digitsToNat (s.data.drop 3) < 60)

-- Basic lookup lemmas about the store operations.

/-! ## C1: the jobs-iff-subscribed invariant -/

/-- A user has live job handles exactly when their record exists with
`subscribed=true`. -/
def JobsIffSubscribed (s : BotState) : Prop :=
  ∀ u, jobsOf s u ≠ [] ↔ (findUser s.store u).map UserRec.subscribed = some true

/-- Every live handle stored under key `u` carries `user_id = u` in its
payload and fires at minute `0`. -/
def JobsWellFormed (s : BotState) : Prop :=
  ∀ u j, j ∈ jobsOf s u → j.user = u ∧ j.minute = 0

/-- The inductive invariant for the event system. -/
def Inv (s : BotState) : Prop :=
  JobsIffSubscribed s ∧ JobsWellFormed s

theorem findUser_nil (u : Nat) : findUser [] u = none := rfl

theorem findUser_cons (k : Nat) (r : UserRec) (rest : Store) (u : Nat) :
    findUser ((k, r) :: rest) u = if k = u then some r else findUser rest u := rfl

theorem updateRows_nil (u : Nat) (f : UserRec → UserRec) : updateRows [] u f = [] := rfl

theorem updateRows_cons (k : Nat) (r : UserRec) (rest : Store) (u : Nat)
    (f : UserRec → UserRec) :
    updateRows ((k, r) :: rest) u f =
      (if k = u then (k, f r) else (k, r)) :: updateRows rest u f := by
  unfold updateRows
  by_cases hk : k = u <;> simp [hk]

theorem findUser_append_of_none : ∀ (st l2 : Store) (u : Nat),
    findUser st u = none → findUser (st ++ l2) u = findUser l2 u
  | [], _, _, _ => rfl
  | (k, r) :: rest, l2, u, h => by
    rw [findUser_cons] at h
    by_cases hk : k = u
    · simp [hk] at h
    · rw [List.cons_append, findUser_cons, if_neg hk]
      exact findUser_append_of_none rest l2 u (by simpa [hk] using h)

theorem findUser_append_of_some : ∀ (st l2 : Store) (u : Nat) (r : UserRec),
    findUser st u = some r → findUser (st ++ l2) u = some r
  | [], _, _, _, h => by simp [findUser_nil] at h
  | (k, r') :: rest, l2, u, r, h => by
    rw [findUser_cons] at h
    rw [List.cons_append, findUser_cons]
    by_cases hk : k = u
    · simpa [hk] using h
    · rw [if_neg hk]
      exact findUser_append_of_some rest l2 u r (by simpa [hk] using h)

theorem findUser_updateRows : ∀ (st : Store) (u v : Nat) (f : UserRec → UserRec),
    findUser (updateRows st u f) v = if v = u then (findUser st v).map f else findUser st v
  | [], u, v, f => by by_cases h : v = u <;> simp [findUser_nil, updateRows_nil, h]
  | (k, r) :: rest, u, v, f => by
    have ih := findUser_updateRows rest u v f
    rw [updateRows_cons]
    by_cases hk : k = u
    · by_cases hv : k = v
      · subst hk; subst hv
        simp [findUser_cons]
      · subst hk
        have hvu : ¬ v = k := fun h => hv h.symm
        simp [findUser_cons, hv, hvu, ih]
    · by_cases hv : k = v
      · subst hv
        have hvu : ¬ k = u := hk
        simp [findUser_cons, hk]
      · simp [findUser_cons, hk, hv, ih]

theorem findUser_of_not_contains (st : Store) (u : Nat)
    (h : ¬ containsUser st u = true) : findUser st u = none := by
  unfold containsUser at h
  exact Option.not_isSome_iff_eq_none.mp (by simpa using h)

theorem findUser_dbAddUser_self (st : Store) (u h1 h2 : Nat) :
    findUser (dbAddUser st u h1 h2) u =
      some { hour1 := h1, hour2 := h2,
             lastInteraction := (findUser st u).bind UserRec.lastInteraction,
             subscribed := true } := by
  unfold dbAddUser
  by_cases hc : containsUser st u = true
  · obtain ⟨r, hr⟩ : ∃ r, findUser st u = some r := by
      unfold containsUser at hc
      exact Option.isSome_iff_exists.mp hc
    simp [hc, findUser_updateRows, hr]
  · have hn := findUser_of_not_contains st u hc
    rw [if_neg hc, findUser_append_of_none st _ u hn]
    simp [findUser, hn]

theorem findUser_dbAddUser_other (st : Store) (u h1 h2 v : Nat) (hv : v ≠ u) :
    findUser (dbAddUser st v h1 h2) u = findUser st u := by
  unfold dbAddUser
  by_cases hc : containsUser st v = true
  · have huv : ¬ u = v := fun h => hv h.symm
    simp [hc, findUser_updateRows, huv]
  · have hn := findUser_of_not_contains st v hc
    rw [if_neg hc]
    cases hf : findUser st u with
    | none =>
      rw [findUser_append_of_none st _ u hf]
      simp [findUser, fun h : v = u => hv h]
    | some r => exact findUser_append_of_some st _ u r hf

theorem findUser_dbRemoveUser (st : Store) (u v : Nat) :
    findUser (dbRemoveUser st u) v =
      if v = u then (findUser st v).map (fun r => { r with subscribed := false })
      else findUser st v :=
  findUser_updateRows st u v _

theorem findUser_dbUpdateInteraction (st : Store) (u : Nat) (iso : String) (v : Nat) :
    findUser (dbUpdateInteraction st u iso) v =
      if v = u then (findUser st v).map (fun r => { r with lastInteraction := some iso })
      else findUser st v :=
  findUser_updateRows st u v _

-- Projection lemmas for the handlers.

theorem store_cancelUserJobs (s : BotState) (u : Nat) :
    (cancelUserJobs s u).store = s.store := rfl

theorem jobsOf_cancelUserJobs (s : BotState) (u v : Nat) :
    jobsOf (cancelUserJobs s u) v = if v = u then [] else jobsOf s v := rfl

theorem store_scheduleUserReminders (s : BotState) (u : Nat) :
    (scheduleUserReminders s u).store = s.store := by
  unfold scheduleUserReminders
  cases h : findUser s.store u with
  | none => simp [h, cancelUserJobs]
  | some r =>
    by_cases hs : r.subscribed = false <;> simp [h, hs, cancelUserJobs]

theorem jobsOf_scheduleUserReminders_self (s : BotState) (u : Nat) :
    jobsOf (scheduleUserReminders s u) u =
      match findUser s.store u with
      | none => []
      | some r => if r.subscribed = false then [] else reminderJobs u r := by
  unfold scheduleUserReminders
  cases h : findUser s.store u with
  | none => simp [store_cancelUserJobs, h, jobsOf, cancelUserJobs]
  | some r =>
    by_cases hs : r.subscribed = false <;>
      simp [store_cancelUserJobs, h, hs, jobsOf, cancelUserJobs]

theorem jobsOf_scheduleUserReminders_other (s : BotState) (u v : Nat) (hv : v ≠ u) :
    jobsOf (scheduleUserReminders s u) v = jobsOf s v := by
  unfold scheduleUserReminders
  cases h : findUser s.store u with
  | none => simp [h, jobsOf, cancelUserJobs, hv]
  | some r =>
    by_cases hs : r.subscribed = false <;>
      simp [h, hs, jobsOf, cancelUserJobs, hv]

theorem inv_initState : Inv initState := by
  constructor
  · intro u
    simp [initState, jobsOf, findUser_nil]
  · intro u j hj
    simp [initState, jobsOf] at hj

theorem subscribed_map_eq_some_true {o : Option UserRec} :
    o.map UserRec.subscribed = some true ↔ ∃ r, o = some r ∧ r.subscribed = true := by
  cases o with
  | none => simp
  | some r => simp

theorem inv_scheduleUserReminders (s : BotState) (u : Nat) (h : Inv s) :
    Inv (scheduleUserReminders s u) := by
  obtain ⟨h1, h2⟩ := h
  constructor
  · intro v
    by_cases hv : v = u
    · subst hv
      rw [jobsOf_scheduleUserReminders_self, store_scheduleUserReminders]
      cases hf : findUser s.store v with
      | none => simp
      | some r =>
        by_cases hs : r.subscribed = false
        · simp [hs]
        · have ht : r.subscribed = true := by
            cases hb : r.subscribed
            · exact absurd hb hs
            · rfl
          simp [hs, ht, reminderJobs]
    · rw [jobsOf_scheduleUserReminders_other s u v hv, store_scheduleUserReminders]
      exact h1 v
  · intro v j hj
    by_cases hv : v = u
    · subst hv
      rw [jobsOf_scheduleUserReminders_self] at hj
      cases hf : findUser s.store v with
      | none => rw [hf] at hj; simp at hj
      | some r =>
        rw [hf] at hj
        by_cases hs : r.subscribed = false
        · simp [hs] at hj
        · simp [hs, reminderJobs] at hj
          rcases hj with hj | hj <;> simp [hj]
    · rw [jobsOf_scheduleUserReminders_other s u v hv] at hj
      exact h2 v j hj

/-- Both `/stop` and the failure branch of `send_reminder` reach the
same state: record unsubscribed, job entry emptied. -/
theorem inv_unsubscribeCancel (s : BotState) (u : Nat) (h : Inv s) :
    Inv { store := dbRemoveUser s.store u,
          jobs := fun v => if v = u then [] else s.jobs v } := by
  obtain ⟨h1, h2⟩ := h
  constructor
  · intro v
    show (if v = u then [] else s.jobs v) ≠ [] ↔
      Option.map UserRec.subscribed (findUser (dbRemoveUser s.store u) v) = some true
    rw [findUser_dbRemoveUser]
    by_cases hv : v = u
    · rw [if_pos hv, if_pos hv]
      cases findUser s.store v <;> simp
    · rw [if_neg hv, if_neg hv]
      exact h1 v
  · intro v j hj
    have hj' : j ∈ (if v = u then ([] : List Job) else s.jobs v) := hj
    by_cases hv : v = u
    · rw [if_pos hv] at hj'
      simp at hj'
    · rw [if_neg hv] at hj'
      exact h2 v j hj'

theorem inv_startHandler (s : BotState) (u : Nat) (h : Inv s) :
    Inv (startHandler s u) := by
  obtain ⟨h1, h2⟩ := h
  unfold startHandler
  have hfind : findUser (cancelUserJobs
      { s with store := dbAddUser s.store u 10 22 } u).store u =
      some { hour1 := 10, hour2 := 22,
             lastInteraction := (findUser s.store u).bind UserRec.lastInteraction,
             subscribed := true } := findUser_dbAddUser_self s.store u 10 22
  constructor
  · intro v
    by_cases hv : v = u
    · subst hv
      rw [jobsOf_scheduleUserReminders_self, store_scheduleUserReminders, hfind]
      simp [reminderJobs]
    · rw [jobsOf_scheduleUserReminders_other _ _ _ hv, store_scheduleUserReminders]
      show (if v = u then [] else jobsOf s v) ≠ [] ↔
        Option.map UserRec.subscribed (findUser (dbAddUser s.store u 10 22) v) = some true
      rw [if_neg hv, findUser_dbAddUser_other s.store v 10 22 u (fun h => hv h.symm)]
      exact h1 v
  · intro v j hj
    by_cases hv : v = u
    · subst hv
      rw [jobsOf_scheduleUserReminders_self, hfind] at hj
      simp [reminderJobs] at hj
      rcases hj with hj | hj <;> simp [hj]
    · rw [jobsOf_scheduleUserReminders_other _ _ _ hv] at hj
      have hj' : j ∈ (if v = u then ([] : List Job) else s.jobs v) := hj
      rw [if_neg hv] at hj'
      exact h2 v j hj'

theorem inv_stopHandler (s : BotState) (u : Nat) (h : Inv s) :
    Inv (stopHandler s u) :=
  inv_unsubscribeCancel s u h

theorem inv_handleMessage (s : BotState) (u : Nat) (today : PyDate) (h : Inv s) :
    Inv (handleMessage s u today) := by
  obtain ⟨h1, h2⟩ := h
  cases hf : findUser s.store u with
  | none =>
    have he : handleMessage s u today = s := by
      unfold handleMessage; rw [hf]
    rw [he]; exact ⟨h1, h2⟩
  | some r =>
    by_cases hs : r.subscribed = false
    · have he : handleMessage s u today = s := by
        unfold handleMessage; rw [hf]; exact if_pos hs
      rw [he]; exact ⟨h1, h2⟩
    · have he : handleMessage s u today =
          { s with store := dbUpdateInteraction s.store u (isoformat today) } := by
        unfold handleMessage; rw [hf]; exact if_neg hs
      rw [he]
      constructor
      · intro v
        show jobsOf s v ≠ [] ↔
          Option.map UserRec.subscribed
            (findUser (dbUpdateInteraction s.store u (isoformat today)) v) = some true
        rw [findUser_dbUpdateInteraction]
        by_cases hv : v = u
        · subst hv
          rw [if_pos rfl, hf]
          simpa [hf] using h1 v
        · rw [if_neg hv]
          exact h1 v
      · exact h2

theorem inv_sendReminder (s : BotState) (u : Nat) (ok : Bool) (h : Inv s) :
    Inv (sendReminder s u ok) := by
  cases ok with
  | true => exact h
  | false => exact inv_unsubscribeCancel s u h

/-- The repair writes of one sweep never change any record's
`subscribed` flag. -/
theorem sweepLoop_subscribed (today : PyDate) (admin : Bool) :
    ∀ (rows : List (Nat × UserRec)) (st : Store) (v : Nat),
      (findUser (sweepLoop today admin rows st).store v).map UserRec.subscribed =
        (findUser st v).map UserRec.subscribed
  | [], st, v => rfl
  | (u, r) :: rows, st, v => by
    unfold sweepLoop
    cases sweepClassify today r.lastInteraction with
    | repair =>
      rw [sweepLoop_subscribed today admin rows _ v, findUser_dbUpdateInteraction]
      by_cases hv : v = u
      · rw [if_pos hv]
        cases findUser st v <;> simp
      · rw [if_neg hv]
    | days n =>
      by_cases hn : 3 ≤ n
      · simpa [hn] using sweepLoop_subscribed today admin rows st v
      · simpa [hn] using sweepLoop_subscribed today admin rows st v

theorem inv_checkInactivity (s : BotState) (today : PyDate) (admin : Bool) (h : Inv s) :
    Inv (checkInactivity s today admin).1 := by
  obtain ⟨h1, h2⟩ := h
  constructor
  · intro v
    show jobsOf s v ≠ [] ↔ _
    rw [show (checkInactivity s today admin).1.store
          = (sweepLoop today admin (dbActiveUsers s.store) s.store).store from rfl,
        sweepLoop_subscribed]
    exact h1 v
  · exact h2

theorem inv_step (s : BotState) (e : Ev) (h : Inv s) : Inv (step s e) := by
  cases e with
  | start u => exact inv_startHandler s u h
  | stop u => exact inv_stopHandler s u h
  | msg u today => exact inv_handleMessage s u today h
  | send u ok => exact inv_sendReminder s u ok h
  | resched u => exact inv_scheduleUserReminders s u h
  | sweep today admin => exact inv_checkInactivity s today admin h

theorem inv_runTrace (tr : List Ev) : Inv (runTrace tr) := by
  unfold runTrace
  have : ∀ (l : List Ev) (s : BotState), Inv s → Inv (l.foldl step s) := by
    intro l
    induction l with
    | nil => intro s hs; exact hs
    | cons e rest ih => intro s hs; exact ih (step s e) (inv_step s e hs)
  exact this tr initState inv_initState

-- Idempotence of schedule_user_reminders.

theorem botState_ext {a b : BotState} (h1 : a.store = b.store)
    (h2 : ∀ v, a.jobs v = b.jobs v) : a = b := by
  cases a; cases b
  simp only [BotState.mk.injEq]
  exact ⟨h1, funext h2⟩

theorem scheduleUserReminders_idem (s : BotState) (u : Nat) :
    scheduleUserReminders (scheduleUserReminders s u) u = scheduleUserReminders s u := by
  apply botState_ext
  · simp [store_scheduleUserReminders]
  · intro v
    by_cases hv : v = u
    · subst hv
      show jobsOf (scheduleUserReminders (scheduleUserReminders s v) v) v
        = jobsOf (scheduleUserReminders s v) v
      rw [jobsOf_scheduleUserReminders_self, jobsOf_scheduleUserReminders_self,
        store_scheduleUserReminders]
    · show jobsOf (scheduleUserReminders (scheduleUserReminders s u) u) v
        = jobsOf (scheduleUserReminders s u) v
      rw [jobsOf_scheduleUserReminders_other _ _ _ hv]

theorem schedule_iterate (s : BotState) (u : Nat) : ∀ n, 1 ≤ n →
    (fun t => scheduleUserReminders t u)^[n] s = scheduleUserReminders s u
  | 1, _ => by simp
  | n + 2, _ => by
    rw [Function.iterate_succ_apply', schedule_iterate s u (n + 1) (by omega)]
    exact scheduleUserReminders_idem s u

/-! ## Claim theorems -/

/-- C1: Jobs-iff-subscribed invariant: in every state reachable at
event-handler granularity (after `/start`, `/stop`, an inbound
message, a reminder send, a reschedule, or an inactivity sweep), a
user has live scheduled job handles in the job table iff their store
record exists with `subscribed=true`; and no live job handle
references a user whose record has `subscribed=false`. -/
theorem C1_jobs_iff_subscribed (tr : List Ev) :
    (∀ u, jobsOf (runTrace tr) u ≠ [] ↔
        ∃ r, findUser (runTrace tr).store u = some r ∧ r.subscribed = true)
    ∧ (∀ u j r, j ∈ jobsOf (runTrace tr) u →
        findUser (runTrace tr).store j.user = some r → r.subscribed = true) := by
  obtain ⟨h1, h2⟩ := inv_runTrace tr
  constructor
  · intro u
    exact (h1 u).trans subscribed_map_eq_some_true
  · intro u j r hj hfind
    obtain ⟨hju, _⟩ := h2 u j hj
    rw [hju] at hfind
    have hne : jobsOf (runTrace tr) u ≠ [] := by
      intro hnil
      rw [hnil] at hj
      simp at hj
    have hmap := (h1 u).mp hne
    rw [hfind] at hmap
    simpa using hmap

/-- C1 witness: after `/start 1`, user 1 has live jobs, matching their
subscribed record. -/
theorem C1_witness : jobsOf (runTrace [Ev.start 1]) 1 ≠ [] :=
  ((C1_jobs_iff_subscribed [Ev.start 1]).1 1).mpr
    ⟨{ hour1 := 10, hour2 := 22, lastInteraction := none, subscribed := true },
      by decide, rfl⟩

/-- C2: a failed scheduled send to a user with a store record leaves
that record with `subscribed=false` and zero live job handles; a
successful send changes neither the store nor the job table. -/
theorem C2_send_failure_permanent (s : BotState) (u : Nat) (r : UserRec)
    (hf : findUser s.store u = some r) :
    jobsOf (sendReminder s u false) u = []
    ∧ findUser (sendReminder s u false).store u = some { r with subscribed := false }
    ∧ sendReminder s u true = s := by
  refine ⟨?_, ?_, rfl⟩
  · show (if u = u then [] else s.jobs u) = []
    rw [if_pos rfl]
  · show findUser (dbRemoveUser s.store u) u = _
    rw [findUser_dbRemoveUser, if_pos rfl, hf]
    rfl

/-- C2 witness: send failure for subscribed user 7 unsubscribes them
and clears their jobs; a successful send is a no-op. -/
theorem C2_witness :
    findUser (runTrace [Ev.start 7]).store 7
        = some { hour1 := 10, hour2 := 22, lastInteraction := none, subscribed := true }
    ∧ jobsOf (sendReminder (runTrace [Ev.start 7]) 7 false) 7 = []
    ∧ findUser (sendReminder (runTrace [Ev.start 7]) 7 false).store 7
        = some { hour1 := 10, hour2 := 22, lastInteraction := none, subscribed := false } := by
  have h := C2_send_failure_permanent (runTrace [Ev.start 7]) 7
    { hour1 := 10, hour2 := 22, lastInteraction := none, subscribed := true } (by decide)
  exact ⟨by decide, h.1, h.2.1⟩

/-- C3: `scheduleReminders` is idempotent: for a subscribed user,
calling it `n ≥ 1` times consecutively leaves the same job-table entry
as calling it once, and that entry holds exactly two handles. -/
theorem C3_scheduleReminders_idempotent (s : BotState) (u : Nat) (r : UserRec) (n : Nat)
    (hf : findUser s.store u = some r) (hs : r.subscribed = true) (hn : 1 ≤ n) :
    jobsOf ((fun t => scheduleUserReminders t u)^[n] s) u
        = jobsOf (scheduleUserReminders s u) u
    ∧ (jobsOf (scheduleUserReminders s u) u).length = 2 := by
  constructor
  · rw [schedule_iterate s u n hn]
  · have h := jobsOf_scheduleUserReminders_self s u
    rw [hf] at h
    rw [h]
    simp [hs, reminderJobs]

/-- C3 witness: scheduling user 42 three times after `/start` leaves
the same two-job entry as scheduling once. -/
theorem C3_witness :
    jobsOf ((fun t => scheduleUserReminders t 42)^[3] (runTrace [Ev.start 42])) 42
        = jobsOf (scheduleUserReminders (runTrace [Ev.start 42]) 42) 42
    ∧ (jobsOf (scheduleUserReminders (runTrace [Ev.start 42]) 42) 42).length = 2 :=
  C3_scheduleReminders_idempotent (runTrace [Ev.start 42]) 42
    { hour1 := 10, hour2 := 22, lastInteraction := none, subscribed := true } 3
    (by decide) rfl (by decide)

/-- C4 (amended): for a subscribed user, `scheduleReminders` installs
exactly two daily triggers, firing at the stored whole hours `hour1`
and `hour2` with the minute component always `0`; the store has no
minute field, so sub-hour fire times such as 07:15 cannot occur. -/
theorem C4_schedule_times_amended (s : BotState) (u : Nat) (r : UserRec)
    (hf : findUser s.store u = some r) (hs : r.subscribed = true) :
    jobsOf (scheduleUserReminders s u) u =
      [ { user := u, hour := r.hour1, minute := 0, name := "reminder1_" ++ toString u },
        { user := u, hour := r.hour2, minute := 0, name := "reminder2_" ++ toString u } ] := by
  have h := jobsOf_scheduleUserReminders_self s u
  rw [hf] at h
  rw [h]
  simp [hs, reminderJobs]

/-- C4 counterexample: no sequence of event handlers can ever produce a
live trigger for user 42 firing at minute 15 (in particular not at
07:15): every installed trigger fires at minute 0, because the store
records whole hours only and `schedule_user_reminders` passes
`minute=0`. -/
theorem C4_counterexample :
    ¬ ∃ (tr : List Ev) (j : Job), j ∈ jobsOf (runTrace tr) 42 ∧ j.minute = 15 := by
  rintro ⟨tr, j, hj, hm⟩
  obtain ⟨-, h0⟩ := (inv_runTrace tr).2 42 j hj
  rw [h0] at hm
  exact absurd hm (by decide)

/-- C4 witness: a user subscribed with the default hours gets triggers
at 10:00 and 22:00 exactly. -/
theorem C4_witness :
    jobsOf (scheduleUserReminders (runTrace [Ev.start 42]) 42) 42 =
      [ { user := 42, hour := 10, minute := 0, name := "reminder1_42" },
        { user := 42, hour := 22, minute := 0, name := "reminder2_42" } ] := by
  have h := C4_schedule_times_amended (runTrace [Ev.start 42]) 42
    { hour1 := 10, hour2 := 22, lastInteraction := none, subscribed := true }
    (by decide) rfl
  rw [h]
  decide

-- Characterizations of one check_inactivity run.

theorem sweepClassify_repair_iff (today : PyDate) (r : UserRec) :
    sweepClassify today r.lastInteraction = .repair ↔ rowCorrupt r = true := by
  unfold sweepClassify rowCorrupt
  cases r.lastInteraction with
  | none => simp
  | some s =>
    by_cases hs : s = ""
    · simp [hs]
    · cases h : fromisoformat s <;> simp [hs, h, Option.isNone]

theorem rowInactive_of_corrupt (today : PyDate) (r : UserRec)
    (h : rowCorrupt r = true) : rowInactive today r = false := by
  unfold rowInactive
  rw [(sweepClassify_repair_iff today r).mpr h]

theorem sweepLoop_reengaged (today : PyDate) (admin : Bool) :
    ∀ (rows : List (Nat × UserRec)) (st : Store),
      (sweepLoop today admin rows st).reengaged
        = (rows.filter (fun row => rowInactive today row.2)).map Prod.fst
  | [], _ => rfl
  | (u, r) :: rows, st => by
    unfold sweepLoop
    cases hc : sweepClassify today r.lastInteraction with
    | repair =>
      have hri : rowInactive today r = false := by
        unfold rowInactive; rw [hc]
      rw [sweepLoop_reengaged today admin rows _]
      simp [List.filter_cons, hri]
    | days n =>
      by_cases hn : 3 ≤ n
      · have hri : rowInactive today r = true := by
          unfold rowInactive; rw [hc]; exact decide_eq_true hn
        simp [hn, sweepLoop_reengaged today admin rows st, List.filter_cons, hri]
      · have hri : rowInactive today r = false := by
          unfold rowInactive; rw [hc]; exact decide_eq_false hn
        simp [hn, sweepLoop_reengaged today admin rows st, List.filter_cons, hri]

theorem sweepLoop_alerts_fst (today : PyDate) (admin : Bool) :
    ∀ (rows : List (Nat × UserRec)) (st : Store),
      ((sweepLoop today admin rows st).alerts).map Prod.fst
        = if admin then (rows.filter (fun row => rowInactive today row.2)).map Prod.fst
          else []
  | [], _ => by cases admin <;> rfl
  | (u, r) :: rows, st => by
    unfold sweepLoop
    cases hc : sweepClassify today r.lastInteraction with
    | repair =>
      have hri : rowInactive today r = false := by
        unfold rowInactive; rw [hc]
      rw [sweepLoop_alerts_fst today admin rows _]
      simp [List.filter_cons, hri]
    | days n =>
      have ih := sweepLoop_alerts_fst today admin rows st
      by_cases hn : 3 ≤ n
      · have hri : rowInactive today r = true := by
          unfold rowInactive; rw [hc]; exact decide_eq_true hn
        by_cases ha : admin = true
        · simp [hn, ha, List.filter_cons, hri, ha ▸ ih]
        · simp [hn, ha, List.filter_cons, hri] at ih ⊢
          exact ih
      · have hri : rowInactive today r = false := by
          unfold rowInactive; rw [hc]; exact decide_eq_false hn
        by_cases ha : admin = true
        · simp [hn, ha, List.filter_cons, hri, ha ▸ ih]
        · simp [hn, ha, List.filter_cons, hri] at ih ⊢
          exact ih

theorem sweepLoop_store_eq (today : PyDate) (admin : Bool) :
    ∀ (rows : List (Nat × UserRec)) (st : Store),
      (sweepLoop today admin rows st).store
        = rows.foldl (fun acc row =>
            if rowCorrupt row.2 then dbUpdateInteraction acc row.1 (isoformat today)
            else acc) st
  | [], _ => rfl
  | (u, r) :: rows, st => by
    unfold sweepLoop
    rw [List.foldl_cons]
    cases hc : sweepClassify today r.lastInteraction with
    | repair =>
      have hcor : rowCorrupt r = true := (sweepClassify_repair_iff today r).mp hc
      rw [sweepLoop_store_eq today admin rows _]
      simp [hcor]
    | days n =>
      have hcor : rowCorrupt r = false := by
        cases hb : rowCorrupt r
        · rfl
        · exact absurd ((sweepClassify_repair_iff today r).mpr hb) (by rw [hc]; simp)
      by_cases hn : 3 ≤ n <;>
        simp [hn, hcor, sweepLoop_store_eq today admin rows st]

theorem findUser_repairFold (today : PyDate) :
    ∀ (rows : List (Nat × UserRec)) (st : Store) (v : Nat),
      findUser (rows.foldl (fun acc row =>
          if rowCorrupt row.2 then dbUpdateInteraction acc row.1 (isoformat today)
          else acc) st) v
        = if rows.any (fun row => row.1 = v && rowCorrupt row.2)
          then (findUser st v).map
            (fun r => { r with lastInteraction := some (isoformat today) })
          else findUser st v
  | [], st, v => rfl
  | (u, r) :: rows, st, v => by
    rw [List.foldl_cons]
    by_cases hcor : rowCorrupt r = true
    · rw [if_pos hcor, findUser_repairFold today rows _ v]
      by_cases huv : u = v
      · subst huv
        have hany : (((u, r) :: rows).any (fun row => row.1 = u && rowCorrupt row.2))
            = true := by
          simp [List.any_cons, hcor]
        rw [hany, if_pos rfl, findUser_dbUpdateInteraction, if_pos rfl]
        cases han : rows.any (fun row => row.1 = u && rowCorrupt row.2)
        · simp
        · cases hfv : findUser st u
          · simp
          · simp
      · have hstep : findUser (dbUpdateInteraction st u (isoformat today)) v
            = findUser st v := by
          rw [findUser_dbUpdateInteraction, if_neg (fun h => huv h.symm)]
        have hany : ((u, r) :: rows).any (fun row => row.1 = v && rowCorrupt row.2)
            = rows.any (fun row => row.1 = v && rowCorrupt row.2) := by
          simp [List.any_cons, huv]
        rw [hstep, hany]
    · have hcor' : rowCorrupt r = false := by
        cases hb : rowCorrupt r
        · rfl
        · exact absurd hb hcor
      rw [if_neg hcor, findUser_repairFold today rows st v]
      have hany : ((u, r) :: rows).any (fun row => row.1 = v && rowCorrupt row.2)
          = rows.any (fun row => row.1 = v && rowCorrupt row.2) := by
        simp [List.any_cons, hcor']
      rw [hany]

-- Store membership versus lookup.

theorem findUser_mem : ∀ (st : Store) (u : Nat) (r : UserRec),
    findUser st u = some r → (u, r) ∈ st
  | [], u, r, h => by simp [findUser_nil] at h
  | (k, x) :: rest, u, r, h => by
    rw [findUser_cons] at h
    by_cases hk : k = u
    · rw [if_pos hk] at h
      subst hk
      cases h
      exact List.mem_cons_self _ _
    · rw [if_neg hk] at h
      exact List.mem_cons_of_mem _ (findUser_mem rest u r h)

theorem mem_findUser_of_nodup : ∀ (st : Store),
    (st.map Prod.fst).Nodup → ∀ (u : Nat) (r : UserRec),
      (u, r) ∈ st → findUser st u = some r
  | [], _, u, r, h => by simp at h
  | (k, x) :: rest, hnd, u, r, h => by
    rw [List.map_cons, List.nodup_cons] at hnd
    obtain ⟨hknot, hnd'⟩ := hnd
    rcases List.mem_cons.mp h with heq | hmem
    · rw [findUser_cons]
      obtain ⟨h1, h2⟩ := Prod.mk.injEq .. ▸ heq
      rw [if_pos h1.symm, h2]
    · have hku : ¬ k = u := by
        intro heq'
        subst heq'
        exact hknot (List.mem_map.mpr ⟨(k, r), hmem, rfl⟩)
      rw [findUser_cons, if_neg hku]
      exact mem_findUser_of_nodup rest hnd' u r hmem

/-- Characterization of the re-engagement list of one sweep, for a
store with unique user ids (guaranteed by the SQL primary key). -/
theorem mem_reengaged_iff (s : BotState) (today : PyDate) (admin : Bool) (u : Nat)
    (hnd : (s.store.map Prod.fst).Nodup) :
    u ∈ (checkInactivity s today admin).2.reengaged ↔
      ∃ r, findUser s.store u = some r ∧ r.subscribed = true
        ∧ rowInactive today r = true := by
  have hre : (checkInactivity s today admin).2.reengaged
      = ((dbActiveUsers s.store).filter (fun row => rowInactive today row.2)).map Prod.fst :=
    sweepLoop_reengaged today admin (dbActiveUsers s.store) s.store
  rw [hre]
  constructor
  · intro hu
    obtain ⟨row, hrow, hfst⟩ := List.mem_map.mp hu
    obtain ⟨hsnap, hri⟩ := List.mem_filter.mp hrow
    unfold dbActiveUsers at hsnap
    obtain ⟨hmem, hsub⟩ := List.mem_filter.mp hsnap
    have hfind : findUser s.store u = some row.2 := by
      apply mem_findUser_of_nodup s.store hnd
      rw [← hfst]
      exact hmem
    exact ⟨row.2, hfind, hsub, hri⟩
  · rintro ⟨r, hfind, hsub, hri⟩
    apply List.mem_map.mpr
    refine ⟨(u, r), List.mem_filter.mpr ⟨?_, hri⟩, rfl⟩
    unfold dbActiveUsers
    exact List.mem_filter.mpr ⟨findUser_mem s.store u r hfind, hsub⟩

theorem updateRows_keys : ∀ (st : Store) (u : Nat) (f : UserRec → UserRec),
    (updateRows st u f).map Prod.fst = st.map Prod.fst
  | [], _, _ => rfl
  | (k, r) :: rest, u, f => by
    rw [updateRows_cons]
    by_cases hk : k = u <;> simp [hk, updateRows_keys rest u f]

/-- C5: inactivity classification: a user with a parseable stored
`last_interaction_date` is classified inactive (and re-engaged by the
sweep) exactly when `today - last ≥ 3` days; a user with no recorded
interaction is treated as last seen 4 days ago and is therefore
classified inactive on the very first sweep. -/
theorem C5_inactivity_classification (s : BotState) (today last : PyDate) (ds : String)
    (admin : Bool) (u : Nat) (r : UserRec)
    (hnd : (s.store.map Prod.fst).Nodup)
    (hf : findUser s.store u = some r) (hsub : r.subscribed = true)
    (hli : r.lastInteraction = some ds) (hp : fromisoformat ds = some last) :
    (rowInactive today r = true ↔ 3 ≤ dateDiffDays today last)
    ∧ (u ∈ (checkInactivity s today admin).2.reengaged ↔ 3 ≤ dateDiffDays today last)
    ∧ (∀ r' : UserRec, r'.lastInteraction = none →
        sweepClassify today r'.lastInteraction = .days 4 ∧ rowInactive today r' = true) := by
  have hne : ¬ ds = "" := by
    intro h
    rw [h, show fromisoformat "" = none from by decide] at hp
    exact Option.noConfusion hp
  have hri : rowInactive today r = decide (3 ≤ dateDiffDays today last) := by
    simp only [rowInactive, sweepClassify, dateDiffDays, hli, hp, hne, if_false,
      ite_false]
  refine ⟨?_, ?_, ?_⟩
  · rw [hri]
    exact decide_eq_true_iff
  · rw [mem_reengaged_iff s today admin u hnd]
    constructor
    · rintro ⟨r', hf', hsub', hri'⟩
      rw [hf] at hf'
      have : r = r' := Option.some.inj hf'
      subst this
      rw [hri] at hri'
      exact of_decide_eq_true hri'
    · intro hd
      exact ⟨r, hf, hsub, by rw [hri]; exact decide_eq_true hd⟩
  · intro r' h'
    constructor
    · unfold sweepClassify
      rw [h']
      exact congrArg SweepAction.days (by omega)
    · unfold rowInactive sweepClassify
      rw [h']
      exact decide_eq_true (by omega)

/-- C5 witness: last interaction 3 days ago is inactive (inclusive
boundary), 2 days ago is not, never-interacted is inactive. -/
theorem C5_witness :
    rowInactive ⟨2024, 3, 10⟩ ⟨10, 22, some "2024-03-07", true⟩ = true
    ∧ rowInactive ⟨2024, 3, 10⟩ ⟨10, 22, some "2024-03-08", true⟩ = false
    ∧ rowInactive ⟨2024, 3, 10⟩ ⟨10, 22, none, true⟩ = true := by
  have h3 := C5_inactivity_classification
    ⟨[(9, ⟨10, 22, some "2024-03-07", true⟩)], fun _ => []⟩ ⟨2024, 3, 10⟩ ⟨2024, 3, 7⟩
    "2024-03-07" false 9 ⟨10, 22, some "2024-03-07", true⟩
    (by decide) (by decide) rfl rfl (by decide)
  have h2 := C5_inactivity_classification
    ⟨[(9, ⟨10, 22, some "2024-03-08", true⟩)], fun _ => []⟩ ⟨2024, 3, 10⟩ ⟨2024, 3, 8⟩
    "2024-03-08" false 9 ⟨10, 22, some "2024-03-08", true⟩
    (by decide) (by decide) rfl rfl (by decide)
  refine ⟨h3.1.mpr (by decide), ?_, (h3.2.2 ⟨10, 22, none, true⟩ rfl).2⟩
  cases hb : rowInactive ⟨2024, 3, 10⟩ ⟨10, 22, some "2024-03-08", true⟩
  · rfl
  · exact absurd (h2.1.mp hb) (by decide)

/-- C6: upserting an existing user resets `subscribed=true`, overwrites
both reminder slots with the supplied values, leaves
`last_interaction_date` unchanged, and creates no second row (the key
multiset of the table is unchanged). -/
theorem C6_upsert_existing (st : Store) (u h1 h2 : Nat) (r : UserRec)
    (hf : findUser st u = some r) :
    findUser (dbAddUser st u h1 h2) u
        = some { hour1 := h1, hour2 := h2,
                 lastInteraction := r.lastInteraction, subscribed := true }
    ∧ (dbAddUser st u h1 h2).map Prod.fst = st.map Prod.fst := by
  constructor
  · rw [findUser_dbAddUser_self, hf]
    rfl
  · have hc : containsUser st u = true := by
      unfold containsUser; rw [hf]; rfl
    unfold dbAddUser
    rw [if_pos hc]
    exact updateRows_keys st u _

/-- C6 witness: re-subscribing user 3 (custom hours 7/20, unsubscribed,
with history) resets the hours to 10/22 and the flag, keeps the date,
and keeps a single row. -/
theorem C6_witness :
    findUser (dbAddUser [(3, ⟨7, 20, some "2024-01-01", false⟩)] 3 10 22) 3
        = some ⟨10, 22, some "2024-01-01", true⟩
    ∧ (dbAddUser [(3, ⟨7, 20, some "2024-01-01", false⟩)] 3 10 22).map Prod.fst = [3] := by
  have h := C6_upsert_existing [(3, ⟨7, 20, some "2024-01-01", false⟩)] 3 10 22
    ⟨7, 20, some "2024-01-01", false⟩ (by decide)
  exact ⟨h.1, h.2.trans (by decide)⟩

/-- C7 (amended): during a sweep, an active user whose stored
`last_interaction_date` is non-empty and fails to parse gets it
overwritten with today's date and is skipped for that cycle (no
re-engagement message, no admin alert), while every other qualifying
active user is still re-engaged; a stored empty string is falsy in
Python and is instead treated like an absent date — the user is
classified inactive via the 4-days-ago default and re-engaged without
any repair. -/
theorem C7_corrupt_date_selfheal (s : BotState) (today : PyDate) (admin : Bool)
    (u : Nat) (r : UserRec) (ds : String)
    (hnd : (s.store.map Prod.fst).Nodup)
    (hf : findUser s.store u = some r) (hsub : r.subscribed = true)
    (hli : r.lastInteraction = some ds) (hne : ds ≠ "")
    (hbad : fromisoformat ds = none) :
    findUser (checkInactivity s today admin).1.store u
        = some { r with lastInteraction := some (isoformat today) }
    ∧ u ∉ (checkInactivity s today admin).2.reengaged
    ∧ (∀ d, (u, d) ∉ (checkInactivity s today admin).2.alerts)
    ∧ (∀ v r', findUser s.store v = some r' → r'.subscribed = true →
        rowInactive today r' = true →
        v ∈ (checkInactivity s today admin).2.reengaged)
    ∧ (∀ v r', findUser s.store v = some r' → r'.subscribed = true →
        r'.lastInteraction = some "" →
        v ∈ (checkInactivity s today admin).2.reengaged) := by
  have hcor : rowCorrupt r = true := by
    simp only [rowCorrupt, hli, hbad, Option.isNone, hne, if_false, ite_false]
  have hmem : (u, r) ∈ dbActiveUsers s.store := by
    unfold dbActiveUsers
    exact List.mem_filter.mpr ⟨findUser_mem s.store u r hf, hsub⟩
  have hnotin : u ∉ ((dbActiveUsers s.store).filter
      (fun row => rowInactive today row.2)).map Prod.fst := by
    intro hu
    have hu' : u ∈ (checkInactivity s today admin).2.reengaged := by
      show u ∈ (sweepLoop today admin (dbActiveUsers s.store) s.store).reengaged
      rw [sweepLoop_reengaged]
      exact hu
    obtain ⟨r', hf', hsub', hri'⟩ := (mem_reengaged_iff s today admin u hnd).mp hu'
    rw [hf] at hf'
    have : r = r' := Option.some.inj hf'
    subst this
    rw [rowInactive_of_corrupt today r hcor] at hri'
    simp at hri'
  refine ⟨?_, ?_, ?_, ?_, ?_⟩
  · show findUser (sweepLoop today admin (dbActiveUsers s.store) s.store).store u = _
    rw [sweepLoop_store_eq, findUser_repairFold]
    have hany : (dbActiveUsers s.store).any
        (fun row => row.1 = u && rowCorrupt row.2) = true :=
      List.any_eq_true.mpr ⟨(u, r), hmem, by simp [hcor]⟩
    rw [hany, if_pos rfl, hf]
    rfl
  · intro hu
    have hu2 : u ∈ (sweepLoop today admin (dbActiveUsers s.store) s.store).reengaged := hu
    rw [sweepLoop_reengaged] at hu2
    exact hnotin hu2
  · intro d hd
    have hd2 : (u, d) ∈ (sweepLoop today admin (dbActiveUsers s.store) s.store).alerts := hd
    have hu : u ∈ ((sweepLoop today admin (dbActiveUsers s.store) s.store).alerts).map
        Prod.fst := List.mem_map.mpr ⟨(u, d), hd2, rfl⟩
    rw [sweepLoop_alerts_fst] at hu
    cases admin with
    | false => simp at hu
    | true =>
      simp only [if_true] at hu
      exact hnotin hu
  · intro v r' hf' hsub' hri'
    exact (mem_reengaged_iff s today admin v hnd).mpr ⟨r', hf', hsub', hri'⟩
  · intro v r' hf' hsub' hli'
    have hri' : rowInactive today r' = true := by
      simp only [rowInactive, sweepClassify, hli', if_pos, ite_true]
      exact decide_eq_true (by omega)
    exact (mem_reengaged_iff s today admin v hnd).mpr ⟨r', hf', hsub', hri'⟩

/-- C7 counterexample: user 1's stored `last_interaction_date` is the
empty string — a value `date.fromisoformat` rejects — yet the sweep
does not repair it and does not skip the user: `if last_date_str:` is
false for `""`, so the code takes the never-interacted branch
(`days_inactive = 4`) and sends the re-engagement message, leaving the
stored value unchanged. -/
theorem C7_counterexample :
    fromisoformat "" = none
    ∧ findUser (checkInactivity
        ⟨[(1, ⟨10, 22, some "", true⟩)], fun _ => []⟩ ⟨2024, 3, 10⟩ true).1.store 1
      = some ⟨10, 22, some "", true⟩
    ∧ 1 ∈ (checkInactivity
        ⟨[(1, ⟨10, 22, some "", true⟩)], fun _ => []⟩ ⟨2024, 3, 10⟩ true).2.reengaged
    ∧ (some "" : Option String) ≠ some (isoformat ⟨2024, 3, 10⟩) :=
  ⟨by decide, by decide, by decide, by decide⟩

/-- C7 witness: with user 1 holding a corrupt date and user 2 inactive
since 2024-03-01, the 2024-03-10 sweep repairs user 1 (no message, and
user 2 is still re-engaged). -/
theorem C7_witness :
    findUser (checkInactivity
        ⟨[(1, ⟨10, 22, some "NOT-A-DATE", true⟩), (2, ⟨10, 22, some "2024-03-01", true⟩)],
          fun _ => []⟩ ⟨2024, 3, 10⟩ true).1.store 1
      = some ⟨10, 22, some "2024-03-10", true⟩
    ∧ 1 ∉ (checkInactivity
        ⟨[(1, ⟨10, 22, some "NOT-A-DATE", true⟩), (2, ⟨10, 22, some "2024-03-01", true⟩)],
          fun _ => []⟩ ⟨2024, 3, 10⟩ true).2.reengaged
    ∧ 2 ∈ (checkInactivity
        ⟨[(1, ⟨10, 22, some "NOT-A-DATE", true⟩), (2, ⟨10, 22, some "2024-03-01", true⟩)],
          fun _ => []⟩ ⟨2024, 3, 10⟩ true).2.reengaged := by
  have h := C7_corrupt_date_selfheal
    ⟨[(1, ⟨10, 22, some "NOT-A-DATE", true⟩), (2, ⟨10, 22, some "2024-03-01", true⟩)],
      fun _ => []⟩ ⟨2024, 3, 10⟩ true 1 ⟨10, 22, some "NOT-A-DATE", true⟩ "NOT-A-DATE"
    (by decide) (by decide) rfl rfl (by decide) (by decide)
  refine ⟨?_, h.2.1, ?_⟩
  · rw [h.1]
    decide
  · exact h.2.2.2.1 2 ⟨10, 22, some "2024-03-01", true⟩ (by decide) rfl (by decide)

-- TimeSpec parser: canonicity of every successful parse.

theorem isCanonical_canonicalHHMM :
    ∀ h < 24, ∀ m < 60, isCanonicalHHMM (canonicalHHMM h m) = true := by decide

theorem to24Hour_lt (h : Nat) (pm : Bool) (h1 : 1 ≤ h) (h2 : h ≤ 12) :
    to24Hour h pm < 24 := by
  unfold to24Hour
  split_ifs <;> omega

theorem parseCore12_canonical (core : List Char) (pm : Bool) (out : String)
    (h : parseCore12 core pm = some out) : isCanonicalHHMM out = true := by
  unfold parseCore12 at h
  split at h
  · split at h
    · split at h
      · rename_i hc
        cases h
        exact isCanonical_canonicalHHMM _ (to24Hour_lt _ pm hc.1 hc.2) 0 (by omega)
      · exact absurd h (by simp)
    · exact absurd h (by simp)
  · split at h
    · split at h
      · rename_i hc
        cases h
        exact isCanonical_canonicalHHMM _ (to24Hour_lt _ pm hc.1 hc.2.1) _
          (by omega)
      · exact absurd h (by simp)
    · exact absurd h (by simp)
  · exact absurd h (by simp)

theorem parseCore24_canonical (core : List Char) (out : String)
    (h : parseCore24 core = some out) : isCanonicalHHMM out = true := by
  unfold parseCore24 at h
  split at h
  · split at h
    · split at h
      · rename_i hc
        cases h
        exact isCanonical_canonicalHHMM _ hc.1 _ (by omega)
      · exact absurd h (by simp)
    · exact absurd h (by simp)
  · exact absurd h (by simp)

theorem parseTimeSpec_canonical (s : String) (out : String)
    (h : parseTimeSpec s = some out) : isCanonicalHHMM out = true := by
  simp only [parseTimeSpec] at h
  split at h
  · exact parseCore12_canonical _ _ _ h
  · split at h
    · exact parseCore12_canonical _ _ _ h
    · exact parseCore24_canonical _ _ h

/-- C8: the TimeSpec parser is a pure function; every successful parse
is a canonical zero-padded 24-hour `HH:MM`, the spec's scenario inputs
parse as required, strings with no extractable time fail with the
parse-failure outcome (`none`, never another fault — the function is
total), and all supported `"H:MM AM/PM"`, `"H AM/PM"` and `"HH:MM"`
inputs are accepted with the correct canonical value. -/
theorem C8_timespec_contract :
    (∀ s out, parseTimeSpec s = some out → isCanonicalHHMM out = true)
    ∧ parseTimeSpec "8:30 AM" = some "08:30"
    ∧ parseTimeSpec "9 PM" = some "21:00"
    ∧ parseTimeSpec "garbage" = none
    ∧ parseTimeSpec "" = none
    ∧ (∀ h : Fin 12, ∀ m : Fin 60,
        parseTimeSpec (toString (h.1 + 1) ++ ":" ++ padNum 2 m.1 ++ " AM")
          = some (canonicalHHMM (to24Hour (h.1 + 1) false) m.1)
        ∧ parseTimeSpec (toString (h.1 + 1) ++ ":" ++ padNum 2 m.1 ++ " PM")
          = some (canonicalHHMM (to24Hour (h.1 + 1) true) m.1))
    ∧ (∀ h : Fin 12,
        parseTimeSpec (toString (h.1 + 1) ++ " AM")
          = some (canonicalHHMM (to24Hour (h.1 + 1) false) 0)
        ∧ parseTimeSpec (toString (h.1 + 1) ++ " PM")
          = some (canonicalHHMM (to24Hour (h.1 + 1) true) 0))
    ∧ (∀ h : Fin 24, ∀ m : Fin 60,
        parseTimeSpec (canonicalHHMM h.1 m.1) = some (canonicalHHMM h.1 m.1)) := by
  exact ⟨parseTimeSpec_canonical, by decide, by decide, by decide, by decide,
    by decide, by decide, by decide⟩

/-- C8 witness: the canonicity half applied at the spec's own example. -/
theorem C8_witness : isCanonicalHHMM "08:30" = true :=
  C8_timespec_contract.1 "8:30 AM" "08:30" C8_timespec_contract.2.1

/-- C9 (amended): an inbound non-command message from a sender whose
record exists with `subscribed=true` sets that sender's
`last_interaction_date` to today's date; messages from senders with no
record, or with `subscribed=false`, leave the state entirely
unchanged. -/
theorem C9_message_interaction (s : BotState) (u : Nat) (today : PyDate) :
    (∀ r, findUser s.store u = some r → r.subscribed = true →
      findUser (handleMessage s u today).store u
        = some { r with lastInteraction := some (isoformat today) })
    ∧ (∀ r, findUser s.store u = some r → r.subscribed = false →
        handleMessage s u today = s)
    ∧ (findUser s.store u = none → handleMessage s u today = s) := by
  refine ⟨?_, ?_, ?_⟩
  · intro r hf hs
    have he : handleMessage s u today
        = { s with store := dbUpdateInteraction s.store u (isoformat today) } := by
      unfold handleMessage
      rw [hf]
      exact if_neg (by rw [hs]; simp)
    rw [he]
    show findUser (dbUpdateInteraction s.store u (isoformat today)) u = _
    rw [findUser_dbUpdateInteraction, if_pos rfl, hf]
    rfl
  · intro r hf hs
    unfold handleMessage
    rw [hf]
    exact if_pos hs
  · intro hf
    unfold handleMessage
    rw [hf]

/-- C9 counterexample: user 5 has a record with `subscribed=false` and
an old interaction date; an inbound message from 5 does not set
`last_interaction_date` to the current date (the handler returns early
for unknown or unsubscribed senders), refuting "for any sender,
regardless of whether the record has subscribed=true". -/
theorem C9_counterexample :
    findUser (handleMessage
        ⟨[(5, ⟨10, 22, some "2024-01-01", false⟩)], fun _ => []⟩ 5 ⟨2024, 3, 10⟩).store 5
      = some ⟨10, 22, some "2024-01-01", false⟩
    ∧ some "2024-01-01" ≠ some (isoformat ⟨2024, 3, 10⟩) :=
  ⟨by decide, by decide⟩

/-- C9 witness: a message from subscribed user 6 records today. -/
theorem C9_witness :
    findUser (handleMessage
        ⟨[(6, ⟨10, 22, none, true⟩)], fun _ => []⟩ 6 ⟨2024, 3, 10⟩).store 6
      = some ⟨10, 22, some "2024-03-10", true⟩ := by
  have h := (C9_message_interaction
    ⟨[(6, ⟨10, 22, none, true⟩)], fun _ => []⟩ 6 ⟨2024, 3, 10⟩).1
    ⟨10, 22, none, true⟩ (by decide) rfl
  rw [h]
  decide

-- Lookup lemmas for the second implementation's store.

theorem findUser2_nil (u : Nat) : findUser2 [] u = none := rfl

theorem findUser2_cons (k : Nat) (r : UserRec2) (rest : Store2) (u : Nat) :
    findUser2 ((k, r) :: rest) u = if k = u then some r else findUser2 rest u := rfl

theorem findUser2_append_of_none : ∀ (st l2 : Store2) (u : Nat),
    findUser2 st u = none → findUser2 (st ++ l2) u = findUser2 l2 u
  | [], _, _, _ => rfl
  | (k, r) :: rest, l2, u, h => by
    rw [findUser2_cons] at h
    by_cases hk : k = u
    · simp [hk] at h
    · rw [List.cons_append, findUser2_cons, if_neg hk]
      exact findUser2_append_of_none rest l2 u (by simpa [hk] using h)

/-- C10 counterexample: two equivalent starting stores — user 1 present
in both with morning time 07:00 — diverge under the two subscribe
operations: `Database.add_user` overwrites the morning slot back to
10:00 while `valen_bot`'s `add_user` (INSERT OR IGNORE) leaves 07:00,
so the resulting records are not equivalent. -/
theorem C10_counterexample :
    morningOf1 [(1, ⟨7, 22, some "2024-01-01", true⟩)] 1 = some "07:00"
    ∧ morningOf2 [(1, ⟨"2024-01-01T00:00:00", "07:00", "22:00"⟩)] 1 = some "07:00"
    ∧ morningOf1 (dbAddUser [(1, ⟨7, 22, some "2024-01-01", true⟩)] 1 10 22) 1
        = some "10:00"
    ∧ morningOf2 (addUser2 [(1, ⟨"2024-01-01T00:00:00", "07:00", "22:00"⟩)] 1
        "2024-01-02T00:00:00") 1 = some "07:00"
    ∧ (some "10:00" : Option String) ≠ some "07:00" :=
  ⟨by decide, by decide, by decide, by decide, by decide⟩

/-- C10 (amended): the two subscribe implementations agree only on a
fresh user id — each creates exactly one new record with the equivalent
default times (morning 10:00) — while for an already-existing user they
differ: `Database.add_user` resets `subscribed=true` and overwrites the
stored hours with the supplied values, whereas `valen_bot`'s `add_user`
leaves the store completely unchanged. -/
theorem C10_subscribe_comparison (st1 : Store) (st2 : Store2) (u : Nat) (now : String)
    (h1 : findUser st1 u = none) (h2 : findUser2 st2 u = none) :
    morningOf1 (dbAddUser st1 u 10 22) u = some "10:00"
    ∧ morningOf2 (addUser2 st2 u now) u = some "10:00"
    ∧ (dbAddUser st1 u 10 22).map Prod.fst = st1.map Prod.fst ++ [u]
    ∧ (addUser2 st2 u now).map Prod.fst = st2.map Prod.fst ++ [u]
    ∧ (∀ (st1' : Store) (r : UserRec), findUser st1' u = some r →
        findUser (dbAddUser st1' u 10 22) u
          = some { hour1 := 10, hour2 := 22,
                   lastInteraction := r.lastInteraction, subscribed := true })
    ∧ (∀ (st2' : Store2) (r2 : UserRec2), findUser2 st2' u = some r2 →
        addUser2 st2' u now = st2') := by
  have hnc : ¬ containsUser st1 u = true := by
    unfold containsUser
    rw [h1]
    simp
  have he1 : dbAddUser st1 u 10 22
      = st1 ++ [(u, { hour1 := 10, hour2 := 22, lastInteraction := none,
                      subscribed := true })] := by
    unfold dbAddUser
    rw [if_neg hnc]
  have he2 : addUser2 st2 u now
      = st2 ++ [(u, { lastInteraction := now, morning := "10:00",
                      evening := "22:00" })] := by
    unfold addUser2
    rw [h2]
    rfl
  refine ⟨?_, ?_, ?_, ?_, ?_, ?_⟩
  · unfold morningOf1
    rw [findUser_dbAddUser_self, h1]
    decide
  · unfold morningOf2
    rw [he2, findUser2_append_of_none st2 _ u h2]
    have hfind : findUser2 [(u, (⟨now, "10:00", "22:00"⟩ : UserRec2))] u
        = some ⟨now, "10:00", "22:00"⟩ := by
      rw [findUser2_cons, if_pos rfl]
    rw [hfind]
    rfl
  · rw [he1, List.map_append]
    rfl
  · rw [he2, List.map_append]
    rfl
  · intro st1' r hf
    rw [findUser_dbAddUser_self, hf]
    rfl
  · intro st2' r2 hf2
    unfold addUser2
    rw [hf2]
    rfl

/-- C10 witness: both implementations subscribe fresh user 8 with the
equivalent default morning time. -/
theorem C10_witness :
    morningOf1 (dbAddUser [] 8 10 22) 8 = some "10:00"
    ∧ morningOf2 (addUser2 [] 8 "2026-01-01T00:00:00") 8 = some "10:00" := by
  have h := C10_subscribe_comparison [] [] 8 "2026-01-01T00:00:00" rfl rfl
  exact ⟨h.1, h.2.1⟩

end Valen
